import Mathlib

/-!
Verification development for the tomato-timer task manager
(`src/types/index.ts`, `src/utils/storage.ts`, `src/utils/helpers.ts`,
`src/components/Timer/Timer.tsx`, `src/App.tsx`).

The TypeScript source is shallowly embedded:

* ECMAScript `Date` values are epoch milliseconds (`Nat`).  The application
  pins a single time zone (`Asia/Taipei` by default) and never mixes zones in
  the verified code paths, so local time and UTC are identified; dates before
  1970-01-01 do not occur in the data model and are outside the embedding.
* `localStorage` is modelled per concern: the repair pass works on the three
  in-memory collections it reads and writes, the backup/restore manager on a
  structured store plus a keyed snapshot list, the retention cap on the list
  of backup keys, and `clearAllData` on a generic key/value association list.
* JavaScript numbers that the code uses as integers are `Nat`/`Int`; 32-bit
  truncation (`hash & hash`) is explicit arithmetic modulo 2^32.
-/

namespace TomatoTimer

/-- Task / subtask status, from `TaskStatus` in `src/types/index.ts`. -/
inductive TaskStatus
  | pending
  | inProgress
  | completed
deriving DecidableEq, Repr

/-- Pomodoro record status, from `PomodoroStatus` in `src/types/index.ts`. -/
inductive PomodoroStatus
  | active
  | completed
  | paused
deriving DecidableEq, Repr

/-- Milliseconds per day, the constant `1000 * 60 * 60 * 24` used by
`splitTaskIntoSubTasks` in `src/utils/helpers.ts`. -/
def msPerDay : Nat := 86400000

/-- Proleptic Gregorian leap-year test, as used by the ECMAScript `Date`
object whose calendar the helpers rely on. -/
def isLeap (y : Nat) : Bool := (y % 4 == 0 && y % 100 != 0) || y % 400 == 0

/-- Number of days in Gregorian year `y`. -/
def daysInYear (y : Nat) : Nat := if isLeap y then 366 else 365

/-- Number of days in month `m` (1-based) of year `y`. -/
def daysInMonth (y m : Nat) : Nat :=
  if m = 2 then (if isLeap y then 29 else 28)
  else if m = 4 ∨ m = 6 ∨ m = 9 ∨ m = 11 then 30
  else 31

/-- Days from 1970-01-01 to the start of year `1970 + k`. -/
def daysToYearOffset : Nat → Nat
  | 0 => 0
  | k + 1 => daysToYearOffset k + daysInYear (1970 + k)

/-- Days from 1970-01-01 to the start of year `y` (for `y ≥ 1970`). -/
def daysUpToYear (y : Nat) : Nat := daysToYearOffset (y - 1970)

/-- Days from the start of year `y` to the start of month `k + 1`. -/
def daysToMonthOffset (y : Nat) : Nat → Nat
  | 0 => 0
  | k + 1 => daysToMonthOffset y k + daysInMonth y (k + 1)

/-- Days from the start of year `y` to the start of month `m` (1-based). -/
def daysUpToMonth (y m : Nat) : Nat := daysToMonthOffset y (m - 1)

/-- Fuel-driven year extraction: starting from year `y`, repeatedly subtract
whole years from a day count `z`.  The fuel bounds the number of steps; it is
always called with fuel `≥` the number of whole years contained in `z`. -/
def yearOfAux : Nat → Nat → Nat → Nat × Nat
  | 0, y, z => (y, z)
  | f + 1, y, z =>
    if daysInYear y ≤ z then yearOfAux f (y + 1) (z - daysInYear y) else (y, z)

/-- Fuel-driven month extraction inside year `y`, mirroring how a calendar
implementation walks months `1..12`. -/
def monthOfAux (y : Nat) : Nat → Nat → Nat → Nat × Nat
  | 0, m, r => (m, r)
  | f + 1, m, r =>
    if m < 12 ∧ daysInMonth y m ≤ r then monthOfAux y f (m + 1) (r - daysInMonth y m)
    else (m, r)

/-- Convert a day count since 1970-01-01 into a civil `(year, month, day)`
triple (month and day 1-based).  This models the calendar reads
`getFullYear()` / `getMonth() + 1` / `getDate()` of an ECMAScript `Date`. -/
def civilFromDays (z : Nat) : Nat × Nat × Nat :=
  ((yearOfAux z 1970 z).1,
    (monthOfAux (yearOfAux z 1970 z).1 12 1 (yearOfAux z 1970 z).2).1,
    (monthOfAux (yearOfAux z 1970 z).1 12 1 (yearOfAux z 1970 z).2).2 + 1)

/-- Convert a civil date (year ≥ 1970, month and day 1-based) back into a day
count since 1970-01-01. -/
def daysFromCivil (y m d : Nat) : Nat := daysUpToYear y + daysUpToMonth y m + (d - 1)

/-- Decimal digit as a character, used to model `toString()` of a digit. -/
def digitChar : Nat → Char
  | 0 => '0' | 1 => '1' | 2 => '2' | 3 => '3' | 4 => '4'
  | 5 => '5' | 6 => '6' | 7 => '7' | 8 => '8' | 9 => '9'
  | _ => '0'

/-- Numeric value of a decimal digit character. -/
def charVal (c : Char) : Nat := c.toNat - 48

/-- Is `c` one of `'0'..'9'`? -/
def isDigitCh (c : Char) : Bool := 48 ≤ c.toNat && c.toNat ≤ 57

/-- Rendering of `toString(n).padStart(2, '0')` for `n < 100`, as a character list. -/
def pad2 (n : Nat) : List Char := [digitChar (n / 10 % 10), digitChar (n % 10)]

/-- Three-digit zero-padded rendering (`n < 1000`), used for milliseconds. -/
def pad3 (n : Nat) : List Char :=
  [digitChar (n / 100 % 10), digitChar (n / 10 % 10), digitChar (n % 10)]

/-- Four-digit zero-padded rendering (`n < 10000`), used for the year. -/
def pad4 (n : Nat) : List Char :=
  [digitChar (n / 1000 % 10), digitChar (n / 100 % 10),
   digitChar (n / 10 % 10), digitChar (n % 10)]

/-- Character content of `Date.prototype.toISOString()` applied to epoch
millisecond value `ms`: `YYYY-MM-DDTHH:MM:SS.mmmZ`. -/
def isoChars (ms : Nat) : List Char :=
  pad4 (civilFromDays (ms / msPerDay)).1 ++
    '-' :: pad2 (civilFromDays (ms / msPerDay)).2.1 ++
    '-' :: pad2 (civilFromDays (ms / msPerDay)).2.2 ++
    'T' :: pad2 (ms % msPerDay / 3600000) ++
    ':' :: pad2 (ms % msPerDay % 3600000 / 60000) ++
    ':' :: pad2 (ms % msPerDay % 60000 / 1000) ++
    '.' :: pad3 (ms % msPerDay % 1000) ++ ['Z']

/-- Rendering of `Date.prototype.toISOString()` as a string. -/
def isoString (ms : Nat) : String := String.mk (isoChars ms)

/-- Model of `formatDate` from `src/utils/helpers.ts`: the `YYYY-MM-DD` part of the
ISO form (`toISOString().split('T')[0]`). -/
def formatDate (ms : Nat) : String :=
  String.mk (pad4 (civilFromDays (ms / msPerDay)).1 ++
    '-' :: pad2 (civilFromDays (ms / msPerDay)).2.1 ++
    '-' :: pad2 (civilFromDays (ms / msPerDay)).2.2)

/-- Parse the character content of a date string the way `new Date(s)`
does for the two shapes the application produces: a date-only `YYYY-MM-DD`
string (interpreted at UTC midnight) and a full ISO timestamp with a `Z`
suffix.  Returns `none` for anything else (an Invalid Date); dates before
1970 are outside the embedding. -/
def parseJsDateChars : List Char → Option Nat
  | [y1, y2, y3, y4, s1, m1, m2, s2, d1, d2] =>
    if s1 = '-' ∧ s2 = '-' ∧ [y1, y2, y3, y4, m1, m2, d1, d2].all isDigitCh then
      if 1970 ≤ charVal y1 * 1000 + charVal y2 * 100 + charVal y3 * 10 + charVal y4 ∧
          1 ≤ charVal m1 * 10 + charVal m2 ∧ charVal m1 * 10 + charVal m2 ≤ 12 ∧
          1 ≤ charVal d1 * 10 + charVal d2 ∧
          charVal d1 * 10 + charVal d2 ≤
            daysInMonth (charVal y1 * 1000 + charVal y2 * 100 + charVal y3 * 10 + charVal y4)
              (charVal m1 * 10 + charVal m2) then
        some (daysFromCivil
          (charVal y1 * 1000 + charVal y2 * 100 + charVal y3 * 10 + charVal y4)
          (charVal m1 * 10 + charVal m2) (charVal d1 * 10 + charVal d2) * msPerDay)
      else none
    else none
  | [y1, y2, y3, y4, s1, m1, m2, s2, d1, d2, s3, h1, h2, s4, i1, i2, s5, x1, x2, s6,
     f1, f2, f3, s7] =>
    if s1 = '-' ∧ s2 = '-' ∧ s3 = 'T' ∧ s4 = ':' ∧ s5 = ':' ∧ s6 = '.' ∧ s7 = 'Z' ∧
        [y1, y2, y3, y4, m1, m2, d1, d2, h1, h2, i1, i2, x1, x2, f1, f2, f3].all isDigitCh then
      if 1970 ≤ charVal y1 * 1000 + charVal y2 * 100 + charVal y3 * 10 + charVal y4 ∧
          1 ≤ charVal m1 * 10 + charVal m2 ∧ charVal m1 * 10 + charVal m2 ≤ 12 ∧
          1 ≤ charVal d1 * 10 + charVal d2 ∧
          charVal d1 * 10 + charVal d2 ≤
            daysInMonth (charVal y1 * 1000 + charVal y2 * 100 + charVal y3 * 10 + charVal y4)
              (charVal m1 * 10 + charVal m2) ∧
          charVal h1 * 10 + charVal h2 < 24 ∧ charVal i1 * 10 + charVal i2 < 60 ∧
          charVal x1 * 10 + charVal x2 < 60 then
        some (daysFromCivil
            (charVal y1 * 1000 + charVal y2 * 100 + charVal y3 * 10 + charVal y4)
            (charVal m1 * 10 + charVal m2) (charVal d1 * 10 + charVal d2) * msPerDay +
          ((charVal h1 * 10 + charVal h2) * 3600000 + (charVal i1 * 10 + charVal i2) * 60000 +
            (charVal x1 * 10 + charVal x2) * 1000 +
            (charVal f1 * 100 + charVal f2 * 10 + charVal f3)))
      else none
    else none
  | _ => none

/-- Model of `new Date(s).getTime()` for the date strings the application produces.
Invalid dates (NaN timestamps) are outside the verified properties; they are
mapped to `0` only to keep the function total. -/
def newDateMs (s : String) : Nat := (parseJsDateChars s.data).getD 0

/-- A millisecond timestamp whose year renders in four digits, i.e. one that
`toISOString` can print in the fixed-width form the parser reads back.  Every
timestamp the application manipulates (decades around the present) satisfies
this. -/
def isoSafe (ms : Nat) : Prop := (civilFromDays (ms / msPerDay)).1 ≤ 9999

instance : DecidablePred isoSafe := fun ms => by unfold isoSafe; infer_instance

/-! ### Data model (`src/types/index.ts`) -/

/-- Model of `Task` from `src/types/index.ts`.  Date fields are epoch milliseconds.
The optional embedded `subTasks` list is never populated in persisted data
(subtasks live in their own collection), so it is not part of the model. -/
structure Task where
  id : String
  name : String
  shortName : String
  description : Option String
  startDate : Nat
  deadline : Nat
  totalPomodoros : Nat
  completedPomodoros : Nat
  isDaily : Bool
  dailyPomodoros : Option Int
  status : TaskStatus
  createdAt : Nat
  updatedAt : Nat
  color : Option String
  priority : Option String
  projectTagId : Option String
  autoSplit : Bool
deriving DecidableEq, Repr

/-- The `string | Date` union used for `SubTask.scheduledDate`: the daily
decomposition stores a local `YYYY-MM-DD` string, the even-distribution
decomposition stores a `Date`. -/
inductive SDate
  | str : String → SDate
  | date : Nat → SDate
deriving DecidableEq, Repr

/-- Model of `SubTask` from `src/types/index.ts`. -/
structure SubTask where
  id : String
  parentTaskId : String
  name : String
  shortName : String
  description : Option String
  scheduledDate : SDate
  pomodoros : Nat
  completedPomodoros : Nat
  status : TaskStatus
  createdAt : Nat
  updatedAt : Nat
  color : Option String
  priority : Option String
deriving DecidableEq, Repr

/-- Model of `PomodoroRecord` from `src/types/index.ts`. -/
structure PomodoroRecord where
  id : String
  taskId : String
  startTime : Nat
  endTime : Option Nat
  duration : Nat
  status : PomodoroStatus
  notes : Option String
deriving DecidableEq, Repr

/-- Model of `AppSettings` from `src/types/index.ts`. -/
structure AppSettings where
  pomodoroDuration : Nat
  shortBreakDuration : Nat
  longBreakDuration : Nat
  autoStartBreaks : Bool
  autoStartPomodoros : Bool
  notifications : Bool
  soundEnabled : Bool
  timezone : String
deriving DecidableEq, Repr

/-- Model of `DailyStats` from `src/types/index.ts`. -/
structure DailyStats where
  date : String
  totalPomodoros : Nat
  completedTasks : Nat
  focusTime : Nat
deriving DecidableEq, Repr

/-- Model of `MonthlyStats` from `src/types/index.ts`. -/
structure MonthlyStats where
  year : Nat
  month : Nat
  totalPomodoros : Nat
  totalTasks : Nat
  completedTasks : Nat
  averageDailyPomodoros : Nat
deriving DecidableEq, Repr

/-- Model of `generateId` from `src/utils/helpers.ts`: it builds an identifier from the
clock and a random source.  The identifier's content is irrelevant to every
verified property, so the random part is dropped and only the clock input is
kept. -/
def generateId (now : Nat) : String := toString now

/-! ### Task decomposition (`splitTaskIntoSubTasks`, `src/utils/helpers.ts`) -/

/-- Model of `Math.ceil(a / b)` for non-negative integer operands (`b > 0`). -/
def ceilDivNat (a b : Nat) : Nat := (a + b - 1) / b

/-- The per-day pomodoro count for a daily task:
`task.dailyPomodoros && task.dailyPomodoros > 0 ? task.dailyPomodoros : 1`
(`undefined` and `0` are falsy, so both default to 1, as do negatives). -/
def effectiveDailyPomodoros (t : Task) : Nat :=
  match t.dailyPomodoros with
  | some v => if 0 < v then v.toNat else 1
  | none => 1

/-- One generated subtask of the daily decomposition branch: day `i` of the
range, scheduled on the `YYYY-MM-DD` string of that day and named
`{name}-{MM}{DD}`. -/
def mkDailySub (now : Nat) (t : Task) (i : Nat) : SubTask :=
  let dayMs := t.startDate + i * msPerDay
  let c := civilFromDays (dayMs / msPerDay)
  { id := generateId now
    parentTaskId := t.id
    name := t.name ++ "-" ++ String.mk (pad2 c.2.1 ++ pad2 c.2.2)
    shortName := t.shortName ++ "-" ++ String.mk (pad2 c.2.1 ++ pad2 c.2.2)
    description := t.description
    scheduledDate := SDate.str (formatDate dayMs)
    pomodoros := effectiveDailyPomodoros t
    completedPomodoros := 0
    status := TaskStatus.pending
    createdAt := now
    updatedAt := now
    color := t.color
    priority := t.priority }

/-- One generated subtask of the even-distribution branch: day `i` (0-based),
claiming `dayPomodoros`, scheduled on the `Date` of that day. -/
def mkEvenSub (now : Nat) (t : Task) (i dayPomodoros : Nat) : SubTask :=
  { id := generateId now
    parentTaskId := t.id
    name := t.name ++ " - 第" ++ toString (i + 1) ++ "天"
    shortName := t.shortName ++ "-" ++ toString (i + 1)
    description := t.description
    scheduledDate := SDate.date (t.startDate + i * msPerDay)
    pomodoros := dayPomodoros
    completedPomodoros := 0
    status := TaskStatus.pending
    createdAt := now
    updatedAt := now
    color := t.color
    priority := t.priority }

/-- The even-distribution loop: day index `i`, `fuel` remaining days, `rem`
remaining pomodoros.  Each day claims `min ppd rem`; a day whose claim is
zero emits nothing. -/
def evenLoop (now : Nat) (t : Task) (ppd : Nat) : Nat → Nat → Nat → List SubTask
  | _, 0, _ => []
  | i, f + 1, rem =>
    let dayPomodoros := min ppd rem
    if 0 < dayPomodoros then
      mkEvenSub now t i dayPomodoros :: evenLoop now t ppd (i + 1) f (rem - dayPomodoros)
    else
      evenLoop now t ppd (i + 1) f rem

/-- Model of `splitTaskIntoSubTasks` from `src/utils/helpers.ts`.  `now` makes the
ambient clock (`new Date()`) explicit.  `setDate(getDate() + i)` adds `i`
calendar days, i.e. `i * msPerDay` in the single-time-zone model. -/
def splitTaskIntoSubTasks (now : Nat) (t : Task) : List SubTask :=
  let daysDiff := ceilDivNat (t.deadline - t.startDate) msPerDay + 1
  if t.isDaily then
    (List.range daysDiff).map (mkDailySub now t)
  else
    let ppd := ceilDivNat t.totalPomodoros daysDiff
    evenLoop now t ppd 0 daysDiff t.totalPomodoros

/-! ### Persistence round-trip (`taskStorage` / `subTaskStorage`,
`src/utils/storage.ts`)

`saveAll` writes `JSON.stringify` of the collection under a fixed key and
`getAll` parses it back, then maps `new Date(...)` over the date-typed
fields.  The JSON layer is modelled structurally: a serialized item is the
same record with every `Date` field replaced by its `toISOString()` string
(which is what `JSON.stringify` emits for a `Date`), and every non-date
field carried through unchanged (JSON round-trips them structurally). -/

/-- A `Task` as it sits in the store: date fields in serialized string form. -/
structure SerTask where
  id : String
  name : String
  shortName : String
  description : Option String
  startDate : String
  deadline : String
  totalPomodoros : Nat
  completedPomodoros : Nat
  isDaily : Bool
  dailyPomodoros : Option Int
  status : TaskStatus
  createdAt : String
  updatedAt : String
  color : Option String
  priority : Option String
  projectTagId : Option String
  autoSplit : Bool
deriving DecidableEq, Repr

/-- A `SubTask` as it sits in the store.  A string-valued `scheduledDate`
(`YYYY-MM-DD`, produced by the daily decomposition) serializes as itself; a
`Date`-valued one serializes as its ISO string. -/
structure SerSubTask where
  id : String
  parentTaskId : String
  name : String
  shortName : String
  description : Option String
  scheduledDate : String
  pomodoros : Nat
  completedPomodoros : Nat
  status : TaskStatus
  createdAt : String
  updatedAt : String
  color : Option String
  priority : Option String
deriving DecidableEq, Repr

/-- A `PomodoroRecord` as it sits in the store. -/
structure SerRecord where
  id : String
  taskId : String
  startTime : String
  endTime : Option String
  duration : Nat
  status : PomodoroStatus
  notes : Option String
deriving DecidableEq, Repr

/-- Serialization (`JSON.stringify`) of a `string | Date` scheduled date. -/
def serSDate : SDate → String
  | SDate.str s => s
  | SDate.date ms => isoString ms

/-- Serialization of one task (the `JSON.stringify` part of
`taskStorage.saveAll`). -/
def serializeTask (t : Task) : SerTask :=
  { id := t.id
    name := t.name
    shortName := t.shortName
    description := t.description
    startDate := isoString t.startDate
    deadline := isoString t.deadline
    totalPomodoros := t.totalPomodoros
    completedPomodoros := t.completedPomodoros
    isDaily := t.isDaily
    dailyPomodoros := t.dailyPomodoros
    status := t.status
    createdAt := isoString t.createdAt
    updatedAt := isoString t.updatedAt
    color := t.color
    priority := t.priority
    projectTagId := t.projectTagId
    autoSplit := t.autoSplit }

/-- The date-revival mapping of `taskStorage.getAll`: parse the stored JSON
and apply `new Date(...)` to `startDate`, `deadline`, `createdAt`,
`updatedAt`. -/
def reviveTask (t : SerTask) : Task :=
  { id := t.id
    name := t.name
    shortName := t.shortName
    description := t.description
    startDate := newDateMs t.startDate
    deadline := newDateMs t.deadline
    totalPomodoros := t.totalPomodoros
    completedPomodoros := t.completedPomodoros
    isDaily := t.isDaily
    dailyPomodoros := t.dailyPomodoros
    status := t.status
    createdAt := newDateMs t.createdAt
    updatedAt := newDateMs t.updatedAt
    color := t.color
    priority := t.priority
    projectTagId := t.projectTagId
    autoSplit := t.autoSplit }

/-- Model of `taskStorage.saveAll` (the value written to the store). -/
def taskSaveAll (ts : List Task) : List SerTask := ts.map serializeTask

/-- Model of `taskStorage.getAll` (reading that value back). -/
def taskGetAll (ts : List SerTask) : List Task := ts.map reviveTask

/-- Serialization of one subtask. -/
def serializeSubTask (s : SubTask) : SerSubTask :=
  { id := s.id
    parentTaskId := s.parentTaskId
    name := s.name
    shortName := s.shortName
    description := s.description
    scheduledDate := serSDate s.scheduledDate
    pomodoros := s.pomodoros
    completedPomodoros := s.completedPomodoros
    status := s.status
    createdAt := isoString s.createdAt
    updatedAt := isoString s.updatedAt
    color := s.color
    priority := s.priority }

/-- The date-revival mapping of `subTaskStorage.getAll`: `new Date(...)` is
applied unconditionally to `scheduledDate`, `createdAt`, `updatedAt`, so a
stored `YYYY-MM-DD` string comes back as the `Date` of that (UTC) day. -/
def reviveSubTask (s : SerSubTask) : SubTask :=
  { id := s.id
    parentTaskId := s.parentTaskId
    name := s.name
    shortName := s.shortName
    description := s.description
    scheduledDate := SDate.date (newDateMs s.scheduledDate)
    pomodoros := s.pomodoros
    completedPomodoros := s.completedPomodoros
    status := s.status
    createdAt := newDateMs s.createdAt
    updatedAt := newDateMs s.updatedAt
    color := s.color
    priority := s.priority }

/-- Model of `subTaskStorage.saveAll`. -/
def subTaskSaveAll (ss : List SubTask) : List SerSubTask := ss.map serializeSubTask

/-- Model of `subTaskStorage.getAll`. -/
def subTaskGetAll (ss : List SerSubTask) : List SubTask := ss.map reviveSubTask

/-- The date value a `string | Date` scheduled date denotes: a stored
`YYYY-MM-DD` string denotes UTC midnight of that day, a `Date` denotes
itself. -/
def sdateValue : SDate → SDate
  | SDate.str s => SDate.date (newDateMs s)
  | SDate.date ms => SDate.date ms

/-- Validity of a task's field values for the round-trip property: its date
fields are timestamps `toISOString` renders in the fixed-width form. -/
def ValidTask (t : Task) : Prop :=
  isoSafe t.startDate ∧ isoSafe t.deadline ∧ isoSafe t.createdAt ∧ isoSafe t.updatedAt

/-- Validity of a subtask's field values: its date fields are representable
and a string-valued `scheduledDate` is a `YYYY-MM-DD` day string as produced
by `formatDate`. -/
def ValidSubTask (s : SubTask) : Prop :=
  isoSafe s.createdAt ∧ isoSafe s.updatedAt ∧
    ((∃ ms, isoSafe ms ∧ s.scheduledDate = SDate.str (formatDate ms)) ∨
      (∃ ms, isoSafe ms ∧ s.scheduledDate = SDate.date ms))

/-! ### Integrity checksum (`dataSecurity.generateHash`,
`src/utils/storage.ts`)

Per character: `hash = ((hash << 5) - hash) + charCode; hash = hash & hash`.
In ECMAScript, `h << 5` is `ToInt32(h) * 32` truncated back to a signed
32-bit integer, the subtraction and addition are exact, and `h & h` is
`ToInt32(h)`.  The source finally renders the hash with `toString()`; the
decimal rendering is injective, so the value is modelled directly. -/

/-- Model of `ToInt32`: reduce an integer to the signed 32-bit representative. -/
def toInt32 (x : Int) : Int := (x + 2147483648) % 4294967296 - 2147483648

/-- One character step of the rolling hash. -/
def hashStep (h : Int) (c : Nat) : Int := toInt32 (toInt32 (32 * h) - h + (c : Int))

/-- Model of `dataSecurity.generateHash` (as its signed 32-bit value). -/
def generateHash (s : String) : Int := s.data.foldl (fun h c => hashStep h c.toNat) 0

/-! ### Repair (`dataSecurity.repairData`, `src/utils/storage.ts`) -/

/-- The three collections `repairData` reads and rewrites. -/
structure RepairState where
  tasks : List Task
  subTasks : List SubTask
  records : List PomodoroRecord
deriving Repr

/-- The time-records that survive a repair pass: those whose `taskId` is in
the union of task ids and subtask ids (`validTaskIds`), computed from the
collections as read at the start of the pass. -/
def validRecords (s : RepairState) : List PomodoroRecord :=
  let ids := s.tasks.map Task.id ++ s.subTasks.map SubTask.id
  s.records.filter (fun r => decide (r.taskId ∈ ids))

/-- The subtasks that survive a repair pass: those whose `parentTaskId` is a
task id. -/
def validSubTasks (s : RepairState) : List SubTask :=
  let ids := s.tasks.map Task.id
  s.subTasks.filter (fun st => decide (st.parentTaskId ∈ ids))

/-- Model of `dataSecurity.repairData`: filter the records against the original
task-and-subtask id set, filter the subtasks against the task id set, count
the removals, and persist the filtered collections only when the count is
positive (in which case the source also snapshots a backup, which does not
touch these collections).  Returns the removal count with the resulting
state. -/
def repairData (s : RepairState) : Nat × RepairState :=
  if 0 < s.records.length - (validRecords s).length +
      (s.subTasks.length - (validSubTasks s).length) then
    (s.records.length - (validRecords s).length +
        (s.subTasks.length - (validSubTasks s).length),
      { s with records := validRecords s, subTasks := validSubTasks s })
  else
    (s.records.length - (validRecords s).length +
        (s.subTasks.length - (validSubTasks s).length), s)

/-! ### Backup and restore (`dataSecurity`, `src/utils/storage.ts`) -/

/-- JavaScript string comparison (`<` on strings, and the default
`Array.prototype.sort()` order) is lexicographic on code units. -/
def lexLe : List Char → List Char → Bool
  | [], _ => true
  | _ :: _, [] => false
  | a :: as, b :: bs =>
    if a.toNat < b.toNat then true
    else if b.toNat < a.toNat then false
    else lexLe as bs

/-- Lexicographic order on strings, as a proposition. -/
def strLe (a b : String) : Prop := lexLe a.data b.data = true

instance : DecidableRel strLe := fun a b => by unfold strLe; infer_instance

/-- Strict lexicographic order on strings. -/
def strLt (a b : String) : Prop := strLe a b ∧ a ≠ b

instance : DecidableRel strLt := fun a b => by unfold strLt; infer_instance

/-- A parsed backup snapshot: the payload collections in their stored
(serialized) form, the format version, the backup date and the stored
checksum.  The optional fields model `'field' in data`: `none` is an absent
field. -/
structure BackupSnapshot where
  tasks : Option (List SerTask)
  subTasks : Option (List SerSubTask)
  pomodoroRecords : Option (List SerRecord)
  settings : Option AppSettings
  dailyStats : Option (List DailyStats)
  monthlyStats : Option (List MonthlyStats)
  version : String
  backupDate : String
  hash : Int
deriving DecidableEq, Repr

/-- Model of `dataSecurity.validateData`: the parsed value must be an object carrying
`tasks`, `pomodoroRecords` and `settings` fields. -/
def validateData (b : BackupSnapshot) : Bool :=
  b.tasks.isSome && b.pomodoroRecords.isSome && b.settings.isSome

/-- Rendering of an optional serialized field, used by the payload
serialization below. -/
def renderOpt (o : Option String) : String :=
  match o with
  | none => "null"
  | some s => "s(" ++ s ++ ")"

/-- Rendering of one serialized task. -/
def renderSerTask (t : SerTask) : String :=
  String.intercalate "," [t.id, t.name, t.shortName, renderOpt t.description,
    t.startDate, t.deadline, toString t.totalPomodoros, toString t.completedPomodoros,
    toString t.isDaily, renderOpt (t.dailyPomodoros.map toString), toString (repr t.status),
    t.createdAt, t.updatedAt, renderOpt t.color, renderOpt t.priority,
    renderOpt t.projectTagId, toString t.autoSplit]

/-- Rendering of one serialized subtask. -/
def renderSerSubTask (s : SerSubTask) : String :=
  String.intercalate "," [s.id, s.parentTaskId, s.name, s.shortName,
    renderOpt s.description, s.scheduledDate, toString s.pomodoros,
    toString s.completedPomodoros, toString (repr s.status), s.createdAt, s.updatedAt,
    renderOpt s.color, renderOpt s.priority]

/-- Rendering of one serialized record. -/
def renderSerRecord (r : SerRecord) : String :=
  String.intercalate "," [r.id, r.taskId, r.startTime, renderOpt r.endTime,
    toString r.duration, toString (repr r.status), renderOpt r.notes]

/-- Rendering of the settings object. -/
def renderSettings (s : AppSettings) : String :=
  String.intercalate "," [toString s.pomodoroDuration, toString s.shortBreakDuration,
    toString s.longBreakDuration, toString s.autoStartBreaks, toString s.autoStartPomodoros,
    toString s.notifications, toString s.soundEnabled, s.timezone]

/-- Rendering of one daily-stats entry. -/
def renderDailyStats (d : DailyStats) : String :=
  String.intercalate "," [d.date, toString d.totalPomodoros, toString d.completedTasks,
    toString d.focusTime]

/-- Rendering of one monthly-stats entry. -/
def renderMonthlyStats (m : MonthlyStats) : String :=
  String.intercalate "," [toString m.year, toString m.month, toString m.totalPomodoros,
    toString m.totalTasks, toString m.completedTasks, toString m.averageDailyPomodoros]

/-- Rendering of an optional list field. -/
def renderOptList {α : Type} (f : α → String) (o : Option (List α)) : String :=
  renderOpt (o.map (fun l => String.intercalate ";" (l.map f)))

/-- Serialization (`JSON.stringify(data)`) of a snapshot's payload — every field except the
stored `hash`, exactly the object the source hashes on both the backup and
the restore side.  A concrete, deterministic rendering stands in for the
JSON text; the restore control flow does not depend on its exact shape. -/
def renderPayload (b : BackupSnapshot) : String :=
  String.intercalate "|" [renderOptList renderSerTask b.tasks,
    renderOptList renderSerSubTask b.subTasks,
    renderOptList renderSerRecord b.pomodoroRecords,
    renderOpt (b.settings.map renderSettings),
    renderOptList renderDailyStats b.dailyStats,
    renderOptList renderMonthlyStats b.monthlyStats,
    b.version, b.backupDate]

/-- The checksum the restore path recomputes over a snapshot's payload. -/
def expectedHash (b : BackupSnapshot) : Int := generateHash (renderPayload b)

/-- The primary collections plus the backup area of the local store, in their
stored (serialized) forms.  `backups` maps each backup key to the parse of
its value: `none` models an unparsable value (a `safeJsonParse` failure or a
value rejected as a non-object). -/
structure LocalStore where
  tasks : List SerTask
  subTasks : List SerSubTask
  pomodoroRecords : List SerRecord
  settings : Option AppSettings
  dailyStats : List DailyStats
  monthlyStats : List MonthlyStats
  backups : List (String × Option BackupSnapshot)
deriving Repr

/-- The key `restoreLatestBackup` picks: all backup keys, sorted and
reversed, first element. -/
def latestBackupKey (st : LocalStore) : String :=
  ((List.insertionSort strLe (st.backups.map Prod.fst)).reverse).headD ""

/-- The parse of the latest backup's stored value. -/
def latestLookup (st : LocalStore) : Option (Option BackupSnapshot) :=
  st.backups.lookup (latestBackupKey st)

/-- Writing a snapshot's present fields over the store's primary collections
(the `if (data.x) ...saveAll(data.x)` block of the restore path). -/
def applyRestore (b : BackupSnapshot) (st : LocalStore) : LocalStore :=
  { st with
    tasks := b.tasks.getD st.tasks
    subTasks := b.subTasks.getD st.subTasks
    pomodoroRecords := b.pomodoroRecords.getD st.pomodoroRecords
    settings := match b.settings with | some v => some v | none => st.settings
    dailyStats := b.dailyStats.getD st.dailyStats
    monthlyStats := b.monthlyStats.getD st.monthlyStats }

/-- Model of `dataSecurity.restoreLatestBackup`: no backups, an unparsable latest
snapshot, a failed structure validation or a checksum mismatch abort with
`false` and no mutation; otherwise each present payload field overwrites its
collection.  (On success the rewrites also trigger fresh auto-backups; the
claims verified here concern only the primary collections.) -/
def restoreLatestBackup (st : LocalStore) : Bool × LocalStore :=
  if st.backups.isEmpty then (false, st)
  else
    match latestLookup st with
    | none => (false, st)
    | some none => (false, st)
    | some (some b) =>
      if !validateData b then (false, st)
      else if b.hash ≠ expectedHash b then (false, st)
      else (true, applyRestore b st)

/-! ### Backup retention (`dataSecurity.autoBackup` /
`dataSecurity.cleanupOldBackups`, `src/utils/storage.ts`)

Only the set of backup keys matters for the retention cap, so this model
tracks the list of backup keys in store order. -/

/-- The backup key namespace `tomato_timer_backup_`. -/
def backupStem : String := "tomato_timer_backup_"

/-- The key `autoBackup` writes for clock value `t` (`Date.now()`). -/
def backupKeyFor (t : Nat) : String := backupStem ++ toString t

/-- Maximum retained backups (`MAX_BACKUPS`). -/
def maxBackups : Nat := 5

/-- Model of `dataSecurity.cleanupOldBackups`: collect the backup keys, sort them,
reverse (so the lexicographically greatest come first) and remove every key
past the first `MAX_BACKUPS`. -/
def cleanupOldBackups (keys : List String) : List String :=
  keys.filter
    (fun k => decide (k ∈ ((List.insertionSort strLe keys).reverse).take maxBackups))

/-- Model of `dataSecurity.autoBackup` at clock value `t`: write the snapshot under
`tomato_timer_backup_{t}` (`setItem` overwrites in place if the key already
exists, otherwise appends) and prune. -/
def autoBackup (t : Nat) (keys : List String) : List String :=
  let keys2 := if backupKeyFor t ∈ keys then keys else keys ++ [backupKeyFor t]
  cleanupOldBackups keys2

/-- A sequence of snapshot operations at the given clock values. -/
def snapshotOps (ts : List Nat) (keys : List String) : List String :=
  ts.foldl (fun ks t => autoBackup t ks) keys

/-! ### Clearing (`clearAllData`, `src/utils/storage.ts` and `STORAGE_KEYS`,
`src/types/index.ts`) -/

/-- Model of `Object.values(STORAGE_KEYS)`: the seven primary collection keys. -/
def storageKeys : List String :=
  ["tomato-timer-tasks", "tomato-timer-sub-tasks", "tomato-timer-pomodoro-records",
   "tomato-timer-project-tags", "tomato-timer-settings", "tomato-timer-daily-stats",
   "tomato-timer-monthly-stats"]

/-- Model of `localStorage.removeItem` on a generic key/value store. -/
def removeItem (key : String) (store : List (String × String)) : List (String × String) :=
  store.filter (fun kv => kv.1 != key)

/-- Model of `clearAllData`: remove each of the seven primary keys. -/
def clearAllData (store : List (String × String)) : List (String × String) :=
  storageKeys.foldl (fun st k => removeItem k st) store

/-- Does a key live in the backup namespace? (`key.startsWith(BACKUP_PREFIX)`,
written structurally so it evaluates.) -/
def isStemOf : List Char → List Char → Bool
  | [], _ => true
  | _ :: _, [] => false
  | a :: as, b :: bs => a == b && isStemOf as bs

/-- Backup-namespace test on keys. -/
def isBackupKey (k : String) : Bool := isStemOf backupStem.data k.data

/-! ### Focus timer (`src/components/Timer/Timer.tsx`)

The component state is the hook state of `Timer` plus the record collection
maintained by the `App` callbacks (`addPomodoroRecord` appends,
`updatePomodoroRecord` replaces by id).  The selected target travels back
through `onTaskUpdate` / `onSubTaskUpdate` / `updateTempSubTask`, so an
update of the target is reflected in the corresponding `selected…` field.
`now` makes the ambient clock explicit. -/

/-- The ad hoc temporary subtask type defined inside `Timer.tsx`. -/
structure TempSubTask where
  id : String
  name : String
  shortName : String
  description : Option String
  pomodoros : Nat
  completedPomodoros : Nat
  status : TaskStatus
  scheduledDate : String
  createdAt : Nat
  updatedAt : Nat
deriving DecidableEq, Repr

/-- The timer's work/break mode (`'work' | 'break'`). -/
inductive TimerMode
  | work
  | brk
deriving DecidableEq, Repr

/-- The timer component state. -/
structure TimerState where
  timeLeft : Nat
  isRunning : Bool
  isPaused : Bool
  currentRecord : Option PomodoroRecord
  mode : TimerMode
  selectedTask : Option Task
  selectedSubTask : Option SubTask
  selectedTempSubTask : Option TempSubTask
  records : List PomodoroRecord
deriving DecidableEq, Repr

/-- Model of `updatePomodoroRecord` in `src/App.tsx`: replace the record with the
same id. -/
def updateRecordList (records : List PomodoroRecord) (r : PomodoroRecord) :
    List PomodoroRecord :=
  records.map (fun x => if x.id = r.id then r else x)

/-- The `completedPomodoros` of the currently selected target, under the
precedence `selectedTempSubTask || selectedSubTask || selectedTask` used
throughout `Timer.tsx`. -/
def selectedCompleted (s : TimerState) : Option Nat :=
  match s.selectedTempSubTask with
  | some t => some t.completedPomodoros
  | none =>
    match s.selectedSubTask with
    | some st => some st.completedPomodoros
    | none => s.selectedTask.map Task.completedPomodoros

/-- The selected target's goal: `pomodoros` for a (temporary) subtask,
`totalPomodoros` for a task. -/
def selectedGoal (s : TimerState) : Option Nat :=
  match s.selectedTempSubTask with
  | some t => some t.pomodoros
  | none =>
    match s.selectedSubTask with
    | some st => some st.pomodoros
    | none => s.selectedTask.map Task.totalPomodoros

/-- The selected target's status. -/
def selectedStatus (s : TimerState) : Option TaskStatus :=
  match s.selectedTempSubTask with
  | some t => some t.status
  | none =>
    match s.selectedSubTask with
    | some st => some st.status
    | none => s.selectedTask.map Task.status

/-- Model of `updateTaskProgress` in `Timer.tsx`: increment the selected target's
completed count, mark it `completed` when the new count meets or exceeds its
goal and `in-progress` otherwise, and hand the updated entity back through
the corresponding callback. -/
def updateTaskProgress (now : Nat) (s : TimerState) : TimerState :=
  match s.selectedTempSubTask with
  | some t =>
    let n := t.completedPomodoros + 1
    let st := if t.pomodoros ≤ n then TaskStatus.completed else TaskStatus.inProgress
    let t2 := { t with completedPomodoros := n, status := st, updatedAt := now }
    { s with selectedTempSubTask := some t2 }
  | none =>
    match s.selectedSubTask with
    | some sub =>
      let n := sub.completedPomodoros + 1
      let st := if sub.pomodoros ≤ n then TaskStatus.completed else TaskStatus.inProgress
      let sub2 := { sub with completedPomodoros := n, status := st, updatedAt := now }
      { s with selectedSubTask := some sub2 }
    | none =>
      match s.selectedTask with
      | some t =>
        let n := t.completedPomodoros + 1
        let st := if t.totalPomodoros ≤ n then TaskStatus.completed else TaskStatus.inProgress
        let t2 := { t with completedPomodoros := n, status := st, updatedAt := now }
        { s with selectedTask := some t2 }
      | none => s

/-- Model of `stopTimer` in `Timer.tsx`: close the open record (`endTime = now`,
status `completed`) through `onUpdateRecord`, then return to idle with the
countdown reset to the configured work duration. -/
def stopTimer (cfg : AppSettings) (now : Nat) (s : TimerState) : TimerState :=
  let s1 :=
    match s.currentRecord with
    | some r =>
      let r2 := { r with endTime := some now, status := PomodoroStatus.completed }
      { s with records := updateRecordList s.records r2 }
    | none => s
  { s1 with
    isRunning := false
    isPaused := false
    currentRecord := none
    timeLeft := cfg.pomodoroDuration * 60
    mode := TimerMode.work }

/-- One second of the countdown effect in `Timer.tsx`.  Nothing happens
unless the timer is running, unpaused and has time left.  When the counter
is about to hit zero in work mode, the target's progress is credited, the
mode flips to break and the countdown becomes the configured short-break
duration; in break mode the timer stops (the stop handler's queued reset to
the work duration lands after the tick's own update, so the work duration is
the final countdown value). -/
def timerTick (cfg : AppSettings) (now : Nat) (s : TimerState) : TimerState :=
  if s.isRunning && !s.isPaused && 0 < s.timeLeft then
    if s.timeLeft ≤ 1 then
      match s.mode with
      | TimerMode.work =>
        { updateTaskProgress now s with
          mode := TimerMode.brk
          timeLeft := cfg.shortBreakDuration * 60 }
      | TimerMode.brk => stopTimer cfg now s
    else { s with timeLeft := s.timeLeft - 1 }
  else s

/-! ## Theorems -/

/-- A sample non-daily task: 5 pomodoros, 2024-07-10 through 2024-07-12. -/
def sampleEvenTask : Task :=
  { id := "t1"
    name := "report"
    shortName := "rp"
    description := none
    startDate := 19914 * msPerDay
    deadline := 19916 * msPerDay
    totalPomodoros := 5
    completedPomodoros := 0
    isDaily := false
    dailyPomodoros := none
    status := TaskStatus.pending
    createdAt := 19914 * msPerDay
    updatedAt := 19914 * msPerDay
    color := none
    priority := none
    projectTagId := none
    autoSplit := true }

/-- A sample timer state: running work mode at its last second, a temporary
subtask with 2 target pomodoros and 0 completed selected, one open record. -/
def sampleRecord : PomodoroRecord :=
  { id := "r1"
    taskId := "tmp1"
    startTime := 1000
    endTime := none
    duration := 40
    status := PomodoroStatus.active
    notes := none }

/-- A sample temporary subtask. -/
def sampleTemp : TempSubTask :=
  { id := "tmp1"
    name := "quick fix"
    shortName := "qf"
    description := none
    pomodoros := 2
    completedPomodoros := 0
    status := TaskStatus.inProgress
    scheduledDate := "2024-07-10"
    createdAt := 1000
    updatedAt := 1000 }

/-- A sample running timer state. -/
def sampleTimer : TimerState :=
  { timeLeft := 1
    isRunning := true
    isPaused := false
    currentRecord := some sampleRecord
    mode := TimerMode.work
    selectedTask := none
    selectedSubTask := none
    selectedTempSubTask := some sampleTemp
    records := [sampleRecord] }

/-- The default settings of `settingsStorage.defaultSettings`. -/
def defaultSettings : AppSettings :=
  { pomodoroDuration := 40
    shortBreakDuration := 5
    longBreakDuration := 15
    autoStartBreaks := false
    autoStartPomodoros := false
    notifications := true
    soundEnabled := true
    timezone := "Asia/Taipei" }

/-- An orphaned subtask referenced by a time-record: the record survives the
first repair pass (the subtask's id is still in the valid-id set when the
records are filtered) while the subtask itself is removed. -/
def cexOrphanSub : SubTask :=
  { id := "s1"
    parentTaskId := "missing-task"
    name := "orphan"
    shortName := "o"
    description := none
    scheduledDate := SDate.date 0
    pomodoros := 1
    completedPomodoros := 0
    status := TaskStatus.pending
    createdAt := 0
    updatedAt := 0
    color := none
    priority := none }

/-- A time-record pointing at the orphaned subtask. -/
def cexOrphanRecord : PomodoroRecord :=
  { id := "r1"
    taskId := "s1"
    startTime := 0
    endTime := none
    duration := 40
    status := PomodoroStatus.completed
    notes := none }

/-- The starting state of the repair counterexample: no tasks, one orphaned
subtask, one record chained to it. -/
def cexRepairState : RepairState :=
  { tasks := []
    subTasks := [cexOrphanSub]
    records := [cexOrphanRecord] }

/-- A sample store: one primary key, one backup key. -/
def sampleStore : List (String × String) :=
  [("tomato-timer-tasks", "[]"), ("tomato_timer_backup_1700000000000", "snapshot")]

/-- A tampered snapshot: the payload is intact but the stored hash field is
not the hash of the payload. -/
def cexSnapshot : BackupSnapshot :=
  { tasks := some []
    subTasks := none
    pomodoroRecords := some []
    settings := some defaultSettings
    dailyStats := none
    monthlyStats := none
    version := "1.0.0"
    backupDate := "2024"
    hash := 123 }

/-- A store holding just the tampered snapshot. -/
def cexStore : LocalStore :=
  { tasks := []
    subTasks := []
    pomodoroRecords := []
    settings := none
    dailyStats := []
    monthlyStats := []
    backups := [("tomato_timer_backup_1700000000000", some cexSnapshot)] }

/-- The `MMDD` display suffix of calendar day `z` (days since the epoch):
month and day, each zero-padded to two digits. -/
def mmddString (z : Nat) : String :=
  String.mk (pad2 (civilFromDays z).2.1 ++ pad2 (civilFromDays z).2.2)

/-- The `YYYY-MM-DD` string of calendar day `z` (days since the epoch). -/
def dayString (z : Nat) : String :=
  String.mk (pad4 (civilFromDays z).1 ++ '-' :: pad2 (civilFromDays z).2.1 ++
    '-' :: pad2 (civilFromDays z).2.2)

/-- The sample task, as a daily task. -/
def sampleDailyTask : Task := { sampleEvenTask with isDaily := true }

/-- Six strictly increasing realistic millisecond timestamps. -/
def c7Stamps : List Nat :=
  [1700000000000, 1700000000001, 1700000000002, 1700000000003,
   1700000000004, 1700000000005]

/-- A sample subtask with a string-valued scheduled date. -/
def sampleStrSub : SubTask :=
  { id := "s1"
    parentTaskId := "t1"
    name := "report-0710"
    shortName := "rp-0710"
    description := none
    scheduledDate := SDate.str "2024-07-10"
    pomodoros := 2
    completedPomodoros := 0
    status := TaskStatus.pending
    createdAt := 19914 * msPerDay
    updatedAt := 19914 * msPerDay
    color := none
    priority := none }

/-- Every subtask emitted by the even-distribution loop claims a positive
number of pomodoros, and the emitted claims sum to at most the remaining
budget the loop started with. -/
theorem evenLoop_spec (now : Nat) (t : Task) (ppd : Nat) :
    ∀ f i rem, ((evenLoop now t ppd i f rem).map SubTask.pomodoros).sum ≤ rem ∧
      ∀ st ∈ evenLoop now t ppd i f rem, st.pomodoros ≠ 0 := by
  intro f
  induction f with
  | zero => intro i rem; simp [evenLoop]
  | succ f ih =>
    intro i rem
    by_cases h : 0 < min ppd rem
    · obtain ⟨h1, h2⟩ := ih (i + 1) (rem - min ppd rem)
      constructor
      · simp only [evenLoop, if_pos h, List.map_cons, List.sum_cons, mkEvenSub]
        omega
      · intro st hst
        simp only [evenLoop, if_pos h, List.mem_cons] at hst
        rcases hst with rfl | hst
        · simp only [mkEvenSub]; omega
        · exact h2 st hst
    · obtain ⟨h1, h2⟩ := ih (i + 1) rem
      constructor
      · simpa only [evenLoop, if_neg h] using h1
      · intro st hst
        simp only [evenLoop, if_neg h] at hst
        exact h2 st hst

/-- C3: for every non-daily task whose deadline is on or after its start
date, the even-distribution decomposition (per-day quota
`ceil(totalPomodoros / daysDiff)`, each day claiming
`min(quota, remaining)`) generates subtasks whose pomodoros sum to at most
`totalPomodoros`, and never generates a subtask with zero pomodoros. -/
theorem C3_even_distribution_conserves_budget (now : Nat) (t : Task)
    (hdaily : t.isDaily = false) (hd : t.startDate ≤ t.deadline) :
    ((splitTaskIntoSubTasks now t).map SubTask.pomodoros).sum ≤ t.totalPomodoros ∧
      ∀ st ∈ splitTaskIntoSubTasks now t, st.pomodoros ≠ 0 := by
  have _ := hd
  simp only [splitTaskIntoSubTasks, hdaily, Bool.false_eq_true, if_false]
  exact evenLoop_spec now t _ _ 0 t.totalPomodoros

/-- Witness for C3 at a concrete task. -/
theorem C3_witness :
    ((splitTaskIntoSubTasks 7 sampleEvenTask).map SubTask.pomodoros).sum ≤
        sampleEvenTask.totalPomodoros ∧
      ∀ st ∈ splitTaskIntoSubTasks 7 sampleEvenTask, st.pomodoros ≠ 0 :=
  C3_even_distribution_conserves_budget 7 sampleEvenTask (by decide) (by decide)

/-- C5: a running, unpaused work countdown at its final second with a
selected target credits that target with exactly one more completed
pomodoro, marks it completed exactly when the new count meets or exceeds
its goal (`in-progress` otherwise), flips the machine into break mode and
resets the countdown to the configured break duration. -/
theorem C5_work_completion_credits_progress (cfg : AppSettings) (now : Nat)
    (s : TimerState) (c g : Nat)
    (hrun : s.isRunning = true) (hpause : s.isPaused = false)
    (htime : s.timeLeft = 1) (hmode : s.mode = TimerMode.work)
    (hc : selectedCompleted s = some c) (hg : selectedGoal s = some g) :
    selectedCompleted (timerTick cfg now s) = some (c + 1) ∧
      selectedStatus (timerTick cfg now s) =
        some (if g ≤ c + 1 then TaskStatus.completed else TaskStatus.inProgress) ∧
      (timerTick cfg now s).mode = TimerMode.brk ∧
      (timerTick cfg now s).timeLeft = cfg.shortBreakDuration * 60 := by
  have hstep : timerTick cfg now s =
      { updateTaskProgress now s with
        mode := TimerMode.brk
        timeLeft := cfg.shortBreakDuration * 60 } := by
    unfold timerTick
    rw [hrun, hpause, htime, hmode]
    simp
  rw [hstep]
  clear hstep
  rcases htmp : s.selectedTempSubTask with _ | t <;>
    rcases hsub : s.selectedSubTask with _ | sub <;>
      rcases htask : s.selectedTask with _ | tk <;>
        simp_all [selectedCompleted, selectedGoal, selectedStatus, updateTaskProgress]

/-- Witness for C5 at a concrete running state. -/
theorem C5_witness :
    selectedCompleted (timerTick defaultSettings 3400 sampleTimer) = some (0 + 1) ∧
      selectedStatus (timerTick defaultSettings 3400 sampleTimer) =
        some (if 2 ≤ 0 + 1 then TaskStatus.completed else TaskStatus.inProgress) ∧
      (timerTick defaultSettings 3400 sampleTimer).mode = TimerMode.brk ∧
      (timerTick defaultSettings 3400 sampleTimer).timeLeft =
        defaultSettings.shortBreakDuration * 60 :=
  C5_work_completion_credits_progress defaultSettings 3400 sampleTimer 0 2
    (by decide) (by decide) (by decide) (by decide) (by decide) (by decide)

/-- C6: stopping a running timer before the work countdown reaches zero
leaves the selected target (and hence its completed count and status)
untouched, closes the open time-record with `endTime` equal to the stop
time and status `completed`, and returns the machine to idle with the
countdown reset to the configured work duration. -/
theorem C6_explicit_stop_never_credits (cfg : AppSettings) (now : Nat)
    (s : TimerState) (r : PomodoroRecord)
    (hrun : s.isRunning = true) (htime : 0 < s.timeLeft)
    (hmode : s.mode = TimerMode.work)
    (hrec : s.currentRecord = some r) (hmem : r ∈ s.records) :
    selectedCompleted (stopTimer cfg now s) = selectedCompleted s ∧
      selectedStatus (stopTimer cfg now s) = selectedStatus s ∧
      (stopTimer cfg now s).selectedTask = s.selectedTask ∧
      (stopTimer cfg now s).selectedSubTask = s.selectedSubTask ∧
      (stopTimer cfg now s).selectedTempSubTask = s.selectedTempSubTask ∧
      ({ r with endTime := some now, status := PomodoroStatus.completed } : PomodoroRecord) ∈
        (stopTimer cfg now s).records ∧
      (stopTimer cfg now s).isRunning = false ∧
      (stopTimer cfg now s).currentRecord = none ∧
      (stopTimer cfg now s).timeLeft = cfg.pomodoroDuration * 60 ∧
      (stopTimer cfg now s).mode = TimerMode.work := by
  have _ := hrun; have _ := htime; have _ := hmode
  unfold stopTimer
  rw [hrec]
  refine ⟨?_, ?_, rfl, rfl, rfl, ?_, rfl, rfl, rfl, rfl⟩
  · unfold selectedCompleted; rfl
  · unfold selectedStatus; rfl
  · simp only [updateRecordList, List.mem_map]
    exact ⟨r, hmem, by simp⟩

/-- Witness for C6 at a concrete running state. -/
theorem C6_witness :
    selectedCompleted (stopTimer defaultSettings 2000 sampleTimer) =
        selectedCompleted sampleTimer ∧
      selectedStatus (stopTimer defaultSettings 2000 sampleTimer) =
        selectedStatus sampleTimer ∧
      (stopTimer defaultSettings 2000 sampleTimer).selectedTask = sampleTimer.selectedTask ∧
      (stopTimer defaultSettings 2000 sampleTimer).selectedSubTask =
        sampleTimer.selectedSubTask ∧
      (stopTimer defaultSettings 2000 sampleTimer).selectedTempSubTask =
        sampleTimer.selectedTempSubTask ∧
      ({ sampleRecord with endTime := some 2000, status := PomodoroStatus.completed } :
          PomodoroRecord) ∈ (stopTimer defaultSettings 2000 sampleTimer).records ∧
      (stopTimer defaultSettings 2000 sampleTimer).isRunning = false ∧
      (stopTimer defaultSettings 2000 sampleTimer).currentRecord = none ∧
      (stopTimer defaultSettings 2000 sampleTimer).timeLeft =
        defaultSettings.pomodoroDuration * 60 ∧
      (stopTimer defaultSettings 2000 sampleTimer).mode = TimerMode.work :=
  C6_explicit_stop_never_credits defaultSettings 2000 sampleTimer sampleRecord
    (by decide) (by decide) (by decide) (by decide) (by decide)

/-- Filtering twice with the same predicate is the same as filtering once. -/
theorem filter_self_idem {α : Type} (p : α → Bool) (l : List α) :
    (l.filter p).filter p = l.filter p := by
  rw [List.filter_eq_self]
  intro a ha
  exact List.of_mem_filter ha

/-- A filter that removes nothing (witnessed by an unchanged length) is the
identity. -/
theorem filter_eq_of_length_eq {α : Type} (p : α → Bool) (l : List α)
    (h : (l.filter p).length = l.length) : l.filter p = l := by
  induction l with
  | nil => rfl
  | cons a l ih =>
    by_cases hp : p a
    · simp only [List.filter_cons, if_pos hp, List.length_cons] at h ⊢
      rw [ih (by omega)]
    · exfalso
      have hle := List.length_filter_le p l
      simp only [List.filter_cons, if_neg hp, List.length_cons] at h
      omega

/-- Unfolding of `validSubTasks`. -/
theorem validSubTasks_def (s : RepairState) :
    validSubTasks s =
      s.subTasks.filter (fun st => decide (st.parentTaskId ∈ s.tasks.map Task.id)) := rfl

/-- Unfolding of `validRecords`. -/
theorem validRecords_def (s : RepairState) :
    validRecords s =
      s.records.filter
        (fun r => decide (r.taskId ∈ s.tasks.map Task.id ++ s.subTasks.map SubTask.id)) := rfl

/-- What one repair pass does to each collection: tasks are untouched,
subtasks and records become their filtered versions (also in the
nothing-to-repair branch, where the filters are the identity). -/
theorem repairData_state (s : RepairState) :
    (repairData s).2.tasks = s.tasks ∧
      (repairData s).2.subTasks = validSubTasks s ∧
      (repairData s).2.records = validRecords s := by
  unfold repairData
  by_cases h :
      0 < s.records.length - (validRecords s).length +
        (s.subTasks.length - (validSubTasks s).length)
  · simp [h]
  · have hr : (validRecords s).length = s.records.length := by
      have := List.length_filter_le
        (fun r => decide (r.taskId ∈ s.tasks.map Task.id ++ s.subTasks.map SubTask.id))
        s.records
      rw [validRecords_def]
      rw [validRecords_def] at h
      omega
    have hs : (validSubTasks s).length = s.subTasks.length := by
      have := List.length_filter_le
        (fun st => decide (st.parentTaskId ∈ s.tasks.map Task.id)) s.subTasks
      rw [validSubTasks_def]
      rw [validSubTasks_def] at h
      omega
    have hr2 : validRecords s = s.records := filter_eq_of_length_eq _ _ hr
    have hs2 : validSubTasks s = s.subTasks := filter_eq_of_length_eq _ _ hs
    simp [h, hr2, hs2]

/-- The removal count a repair pass reports. -/
theorem repairData_fst (s : RepairState) :
    (repairData s).1 =
      s.records.length - (validRecords s).length +
        (s.subTasks.length - (validSubTasks s).length) := by
  unfold repairData
  split <;> rfl

/-- Counterexample to C1 as stated: from `cexRepairState`, the second
`repairData` run reports one removed item (not zero) and changes the
records collection, because the first run kept the record whose `taskId`
named a subtask that the same run removed. -/
theorem C1_counterexample :
    (repairData (repairData cexRepairState).2).1 ≠ 0 ∧
      (repairData (repairData cexRepairState).2).2.records ≠
        (repairData cexRepairState).2.records := by
  decide

/-- C1 (amended): repair stabilizes after two runs instead of one.  The
second run may still remove time-records whose `taskId` referenced a
subtask dropped by the first run; from the second run's result, a further
`repairData` run reports zero removed items and leaves the state (hence
every collection) identical. -/
theorem C1_amended_repair_stabilizes_after_two_runs (s : RepairState) :
    (repairData (repairData (repairData s).2).2).1 = 0 ∧
      (repairData (repairData (repairData s).2).2).2 = (repairData (repairData s).2).2 := by
  obtain ⟨ht1, hs1, hr1⟩ := repairData_state s
  obtain ⟨ht2, hs2, hr2⟩ := repairData_state (repairData s).2
  have hvs1 : validSubTasks (repairData s).2 = (repairData s).2.subTasks := by
    rw [validSubTasks_def, ht1, hs1, validSubTasks_def]
    exact filter_self_idem _ _
  have hsubs2 : (repairData (repairData s).2).2.subTasks = (repairData s).2.subTasks := by
    rw [hs2, hvs1]
  have htasks2 : (repairData (repairData s).2).2.tasks = (repairData s).2.tasks := ht2
  have hvs2 : validSubTasks (repairData (repairData s).2).2 =
      (repairData (repairData s).2).2.subTasks := by
    rw [validSubTasks_def, htasks2, hsubs2, hs1, ht1, validSubTasks_def]
    exact filter_self_idem _ _
  have hvr2 : validRecords (repairData (repairData s).2).2 =
      (repairData (repairData s).2).2.records := by
    rw [validRecords_def, htasks2, hsubs2, hr2, validRecords_def]
    exact filter_self_idem _ _
  have hfixed : ∀ t : RepairState, validRecords t = t.records → validSubTasks t = t.subTasks →
      repairData t = (0, t) := by
    intro t hr hs
    unfold repairData
    rw [hr, hs]
    simp
  rw [hfixed _ hvr2 hvs2]
  exact ⟨rfl, rfl⟩

/-- Folding `removeItem` over a key list filters out exactly the pairs whose
key is in the list. -/
theorem foldl_removeItem (keys : List String) (store : List (String × String)) :
    keys.foldl (fun st k => removeItem k st) store =
      store.filter (fun kv => !(keys.contains kv.1)) := by
  induction keys generalizing store with
  | nil => simp
  | cons k ks ih =>
    simp only [List.foldl_cons]
    rw [ih (removeItem k store)]
    unfold removeItem
    rw [List.filter_filter]
    apply List.filter_congr
    intro kv _
    by_cases hk : kv.1 = k <;> by_cases hks : kv.1 ∈ ks <;>
      simp [hk, hks, List.contains_cons]

/-- A key in the backup namespace is none of the seven primary keys. -/
theorem backupKey_not_primary (k : String) (h : isBackupKey k = true) :
    storageKeys.contains k = false := by
  cases hc : storageKeys.contains k
  · rfl
  · exfalso
    have hmem : k ∈ storageKeys := List.mem_of_elem_eq_true hc
    simp only [storageKeys, List.mem_cons, List.not_mem_nil, or_false] at hmem
    rcases hmem with rfl | rfl | rfl | rfl | rfl | rfl | rfl <;> exact absurd h (by decide)

/-- C10: `clearAllData` removes exactly the seven primary collection keys:
every surviving entry's key is outside `STORAGE_KEYS`, no entry is added,
every entry whose key is not one of the seven survives, and the entries in
the backup namespace — in particular the latest backup that `restore`
would read — are exactly the ones that were there before. -/
theorem C10_clear_preserves_backups (store : List (String × String)) :
    (∀ kv ∈ clearAllData store, kv.1 ∉ storageKeys) ∧
      (∀ kv ∈ clearAllData store, kv ∈ store) ∧
      (∀ kv ∈ store, kv.1 ∉ storageKeys → kv ∈ clearAllData store) ∧
      (clearAllData store).filter (fun kv => isBackupKey kv.1) =
        store.filter (fun kv => isBackupKey kv.1) := by
  have hclear : clearAllData store = store.filter (fun kv => !(storageKeys.contains kv.1)) :=
    foldl_removeItem storageKeys store
  refine ⟨?_, ?_, ?_, ?_⟩
  · intro kv hkv
    rw [hclear] at hkv
    have hflt := List.of_mem_filter hkv
    intro hin
    have helem : storageKeys.contains kv.1 = true := List.elem_eq_true_of_mem hin
    rw [helem] at hflt
    simp at hflt
  · intro kv hkv
    rw [hclear] at hkv
    exact List.mem_of_mem_filter hkv
  · intro kv hkv hns
    rw [hclear]
    refine List.mem_filter.mpr ⟨hkv, ?_⟩
    cases hval : storageKeys.contains kv.1
    · rfl
    · exact absurd (List.mem_of_elem_eq_true hval) hns
  · rw [hclear, List.filter_filter]
    apply List.filter_congr
    intro kv _
    cases hbk : isBackupKey kv.1
    · simp
    · rw [backupKey_not_primary kv.1 hbk]
      simp

/-- Witness for C10 at a concrete store: the backup entry survives the
clear, and the backup portion of the store is unchanged. -/
theorem C10_witness :
    ("tomato_timer_backup_1700000000000", "snapshot") ∈ clearAllData sampleStore ∧
      (clearAllData sampleStore).filter (fun kv => isBackupKey kv.1) =
        sampleStore.filter (fun kv => isBackupKey kv.1) :=
  ⟨(C10_clear_preserves_backups sampleStore).2.2.1 _ (by decide) (by decide),
    (C10_clear_preserves_backups sampleStore).2.2.2⟩

/-- C2: if there is no backup snapshot, or the latest one is unparsable, or
its stored hash differs from the hash recomputed over its payload (the
snapshot minus the hash field), then `restoreLatestBackup` reports failure
and every primary collection — tasks, subtasks, records, settings, daily
and monthly stats — is left exactly as it was. -/
theorem C2_restore_atomic_on_failure (st : LocalStore)
    (h : st.backups = [] ∨ latestLookup st = some none ∨
      ∃ b, latestLookup st = some (some b) ∧ b.hash ≠ expectedHash b) :
    (restoreLatestBackup st).1 = false ∧
      (restoreLatestBackup st).2.tasks = st.tasks ∧
      (restoreLatestBackup st).2.subTasks = st.subTasks ∧
      (restoreLatestBackup st).2.pomodoroRecords = st.pomodoroRecords ∧
      (restoreLatestBackup st).2.settings = st.settings ∧
      (restoreLatestBackup st).2.dailyStats = st.dailyStats ∧
      (restoreLatestBackup st).2.monthlyStats = st.monthlyStats := by
  have key : restoreLatestBackup st = (false, st) := by
    unfold restoreLatestBackup
    rcases h with h | h | ⟨b, hb, hne⟩
    · simp [h]
    · by_cases he : st.backups.isEmpty
      · simp [he]
      · simp [he, h]
    · by_cases he : st.backups.isEmpty
      · simp [he]
      · rw [if_neg (by simp [he])]
        rw [hb]
        by_cases hv : validateData b
        · simp [hv, hne]
        · simp [hv]
  rw [key]
  exact ⟨rfl, rfl, rfl, rfl, rfl, rfl, rfl⟩

set_option maxRecDepth 200000 in
/-- Witness for C2 at the tampered store: restore fails and every primary
collection is untouched. -/
theorem C2_witness :
    (restoreLatestBackup cexStore).1 = false ∧
      (restoreLatestBackup cexStore).2.tasks = cexStore.tasks ∧
      (restoreLatestBackup cexStore).2.subTasks = cexStore.subTasks ∧
      (restoreLatestBackup cexStore).2.pomodoroRecords = cexStore.pomodoroRecords ∧
      (restoreLatestBackup cexStore).2.settings = cexStore.settings ∧
      (restoreLatestBackup cexStore).2.dailyStats = cexStore.dailyStats ∧
      (restoreLatestBackup cexStore).2.monthlyStats = cexStore.monthlyStats :=
  C2_restore_atomic_on_failure cexStore
    (Or.inr (Or.inr ⟨cexSnapshot, by decide, by decide⟩))

/-- The map `toInt32` preserves residues modulo `2^32`. -/
theorem toInt32_emod (x : Int) : toInt32 x % 4294967296 = x % 4294967296 := by
  unfold toInt32
  omega

/-- One hash step is `31 * hash + charCode` modulo `2^32`: the shift,
subtraction and truncation of the source compute exactly that residue. -/
theorem hashStep_emod (h : Int) (c : Nat) :
    hashStep h c % 4294967296 = (31 * h + (c : Int)) % 4294967296 := by
  unfold hashStep toInt32
  omega

/-- Multiplication by 31 is injective modulo `2^32` (31 is odd, with
modular inverse 3186588639). -/
theorem mul31_cancel (x y : Int) (h : 31 * x % 4294967296 = 31 * y % 4294967296) :
    x % 4294967296 = y % 4294967296 := by
  have e1 : (3186588639 * 31 : Int) % 4294967296 = 1 % 4294967296 := by decide
  have step : ∀ z : Int, (3186588639 * (31 * z)) % 4294967296 = z % 4294967296 := by
    intro z
    have h2 : (3186588639 * 31 * z) % 4294967296 = (1 * z) % 4294967296 :=
      Int.ModEq.mul_right z e1
    calc (3186588639 * (31 * z)) % 4294967296
        = (3186588639 * 31 * z) % 4294967296 := by ring_nf
      _ = (1 * z) % 4294967296 := h2
      _ = z % 4294967296 := by rw [one_mul]
  calc x % 4294967296
      = (3186588639 * (31 * x)) % 4294967296 := (step x).symm
    _ = (3186588639 * (31 * y)) % 4294967296 := Int.ModEq.mul_left 3186588639 h
    _ = y % 4294967296 := step y

/-- Hash steps with the same character preserve distinctness of residues. -/
theorem hashStep_cancel (h1 h2 : Int) (c : Nat)
    (he : hashStep h1 c % 4294967296 = hashStep h2 c % 4294967296) :
    h1 % 4294967296 = h2 % 4294967296 := by
  rw [hashStep_emod, hashStep_emod] at he
  have h31 : 31 * h1 % 4294967296 = 31 * h2 % 4294967296 := by omega
  exact mul31_cancel _ _ h31

/-- Folding the hash over a common suffix preserves distinctness of
residues. -/
theorem hashFold_cancel (t : List Char) :
    ∀ h1 h2 : Int, h1 % 4294967296 ≠ h2 % 4294967296 →
      (t.foldl (fun h c => hashStep h c.toNat) h1) % 4294967296 ≠
        (t.foldl (fun h c => hashStep h c.toNat) h2) % 4294967296 := by
  induction t with
  | nil => intro h1 h2 hne; simpa using hne
  | cons c t ih =>
    intro h1 h2 hne
    simp only [List.foldl_cons]
    exact ih _ _ (fun he => hne (hashStep_cancel _ _ _ he))

/-- Character codes are distinct for distinct characters. -/
theorem char_toNat_ne (c1 c2 : Char) (h : c1 ≠ c2) : c1.toNat ≠ c2.toNat := by
  intro he
  apply h
  apply Char.ext
  apply UInt32.ext
  simpa [Char.toNat, UInt32.toNat] using he

/-- Character codes are below `2^32`. -/
theorem char_toNat_lt (c : Char) : c.toNat < 4294967296 := by
  have h := c.val.val.isLt
  simpa [Char.toNat, UInt32.toNat, UInt32.size] using h

/-- C9: each step of `generateHash` computes `hash * 31 + charCode`
truncated to 32 bits; hashing is deterministic (it is a function of the
input string); and two strings of equal length that differ in exactly one
character position hash to different checksums. -/
theorem C9_hash_deterministic_and_sensitive :
    (∀ (h : Int) (c : Nat), hashStep h c % 4294967296 = (31 * h + (c : Int)) % 4294967296) ∧
      (∀ s : String, generateHash s = generateHash s) ∧
      (∀ (p t : List Char) (c1 c2 : Char), c1 ≠ c2 →
        generateHash (String.mk (p ++ c1 :: t)) ≠ generateHash (String.mk (p ++ c2 :: t))) := by
  refine ⟨hashStep_emod, fun _ => rfl, ?_⟩
  intro p t c1 c2 hne hcontra
  unfold generateHash at hcontra
  have hdata : ∀ l : List Char, (String.mk l).data = l := fun _ => rfl
  rw [hdata, hdata, List.foldl_append, List.foldl_append] at hcontra
  simp only [List.foldl_cons] at hcontra
  have hstart :
      hashStep (p.foldl (fun h c => hashStep h c.toNat) 0) c1.toNat % 4294967296 ≠
        hashStep (p.foldl (fun h c => hashStep h c.toNat) 0) c2.toNat % 4294967296 := by
    rw [hashStep_emod, hashStep_emod]
    have hcc := char_toNat_ne c1 c2 hne
    have hl1 := char_toNat_lt c1
    have hl2 := char_toNat_lt c2
    omega
  exact hashFold_cancel t _ _ hstart (by rw [hcontra])

/-- Witness for C9's sensitivity part at two concrete one-character
strings. -/
theorem C9_witness :
    generateHash (String.mk ([] ++ 'a' :: [])) ≠ generateHash (String.mk ([] ++ 'b' :: [])) :=
  C9_hash_deterministic_and_sensitive.2.2 [] [] 'a' 'b' (by decide)

/-- The function `formatDate` renders the calendar day containing the timestamp. -/
theorem formatDate_eq_dayString (ms : Nat) : formatDate ms = dayString (ms / msPerDay) := rfl

/-- C4: for a daily task whose start date and deadline are calendar days
(midnight-aligned timestamps) with deadline on or after start, decomposition
yields exactly `(deadline - start in days) + 1` subtasks; the `i`-th is
scheduled on the `i`-th calendar day of the range, named
`{name}-{MM}{DD}` for that day (two-digit zero-padded month and day), and
carries `pomodoros = dailyPomodoros` (1 when unset or non-positive),
`completedPomodoros = 0` and status pending. -/
theorem C4_daily_coverage (now : Nat) (t : Task)
    (hdaily : t.isDaily = true)
    (hs : t.startDate % msPerDay = 0) (hd : t.deadline % msPerDay = 0)
    (hle : t.startDate ≤ t.deadline) :
    (splitTaskIntoSubTasks now t).length =
        t.deadline / msPerDay - t.startDate / msPerDay + 1 ∧
      ∀ (i : Nat) (h : i < (splitTaskIntoSubTasks now t).length),
        ((splitTaskIntoSubTasks now t).get ⟨i, h⟩).name =
            t.name ++ "-" ++ mmddString (t.startDate / msPerDay + i) ∧
          ((splitTaskIntoSubTasks now t).get ⟨i, h⟩).scheduledDate =
            SDate.str (dayString (t.startDate / msPerDay + i)) ∧
          ((splitTaskIntoSubTasks now t).get ⟨i, h⟩).pomodoros =
            effectiveDailyPomodoros t ∧
          ((splitTaskIntoSubTasks now t).get ⟨i, h⟩).completedPomodoros = 0 ∧
          ((splitTaskIntoSubTasks now t).get ⟨i, h⟩).status = TaskStatus.pending := by
  have hdd : ceilDivNat (t.deadline - t.startDate) msPerDay + 1 =
      t.deadline / msPerDay - t.startDate / msPerDay + 1 := by
    unfold ceilDivNat msPerDay at *
    omega
  have hsplit : splitTaskIntoSubTasks now t =
      (List.range (ceilDivNat (t.deadline - t.startDate) msPerDay + 1)).map
        (mkDailySub now t) := by
    unfold splitTaskIntoSubTasks
    rw [hdaily]
    simp
  constructor
  · rw [hsplit]
    simp [hdd]
  · intro i h
    have hib : i < ceilDivNat (t.deadline - t.startDate) msPerDay + 1 := by
      rw [hsplit] at h
      simpa using h
    have hget : (splitTaskIntoSubTasks now t).get ⟨i, h⟩ = mkDailySub now t i := by
      rw [List.get_eq_getElem, List.getElem_eq_iff]
      show (splitTaskIntoSubTasks now t)[i]? = some (mkDailySub now t i)
      rw [hsplit, List.getElem?_map, List.getElem?_range hib]
      rfl
    have hdi : (t.startDate + i * msPerDay) / msPerDay = t.startDate / msPerDay + i := by
      unfold msPerDay at *
      omega
    rw [hget]
    simp only [mkDailySub]
    rw [formatDate_eq_dayString, hdi]
    simp [mmddString, dayString]

/-- Witness for C4 at a concrete three-day daily task. -/
theorem C4_witness :
    (splitTaskIntoSubTasks 7 sampleDailyTask).length =
        sampleDailyTask.deadline / msPerDay - sampleDailyTask.startDate / msPerDay + 1 ∧
      ((splitTaskIntoSubTasks 7 sampleDailyTask).get ⟨0, by decide⟩).name =
        sampleDailyTask.name ++ "-" ++ mmddString (sampleDailyTask.startDate / msPerDay + 0) := by
  have h := C4_daily_coverage 7 sampleDailyTask (by decide) (by decide) (by decide) (by decide)
  exact ⟨h.1, (h.2 0 (by decide)).1⟩

/-- Characters with equal code points are equal. -/
theorem char_eq_of_toNat_eq (c1 c2 : Char) (h : c1.toNat = c2.toNat) : c1 = c2 := by
  apply Char.ext
  apply UInt32.ext
  simpa [Char.toNat, UInt32.toNat] using h

/-- The order `lexLe` is reflexive. -/
theorem lexLe_refl (l : List Char) : lexLe l l = true := by
  induction l with
  | nil => rfl
  | cons a as ih => simp [lexLe, ih]

/-- The order `lexLe` is total. -/
theorem lexLe_total (l1 l2 : List Char) : lexLe l1 l2 = true ∨ lexLe l2 l1 = true := by
  induction l1 generalizing l2 with
  | nil => left; rfl
  | cons a as ih =>
    cases l2 with
    | nil => right; rfl
    | cons b bs =>
      by_cases hab : a.toNat < b.toNat
      · left; simp [lexLe, hab]
      · by_cases hba : b.toNat < a.toNat
        · right; simp [lexLe, hba]
        · rcases ih bs with h | h
          · left; simp [lexLe, hab, hba, h]
          · right; simp [lexLe, hab, hba, h]

/-- The order `lexLe` is antisymmetric. -/
theorem lexLe_antisymm (l1 : List Char) :
    ∀ l2, lexLe l1 l2 = true → lexLe l2 l1 = true → l1 = l2 := by
  induction l1 with
  | nil =>
    intro l2 h1 h2
    have _ := h1
    cases l2 with
    | nil => rfl
    | cons b bs => exact absurd h2 (by simp [lexLe])
  | cons a as ih =>
    intro l2 h1 h2
    cases l2 with
    | nil => exact absurd h1 (by simp [lexLe])
    | cons b bs =>
      by_cases hab : a.toNat < b.toNat
      · have hba : ¬ b.toNat < a.toNat := by omega
        simp [lexLe, hab, hba] at h2
      · by_cases hba : b.toNat < a.toNat
        · simp [lexLe, hab, hba] at h1
        · have hac : a = b := char_eq_of_toNat_eq a b (by omega)
          subst hac
          simp only [lexLe, if_neg hab, if_neg hba] at h1 h2
          rw [ih bs h1 h2]

/-- The order `strLe` is reflexive. -/
theorem strLe_refl (a : String) : strLe a a := lexLe_refl a.data

/-- The order `strLe` is antisymmetric. -/
theorem strLe_antisymm (a b : String) (h1 : strLe a b) (h2 : strLe b a) : a = b := by
  have hdata : a.data = b.data := lexLe_antisymm a.data b.data h1 h2
  cases a
  cases b
  simp only at hdata
  subst hdata
  rfl

/-- In a strictly ascending list, filtering for membership in its `n`-drop
suffix yields exactly that suffix. -/
theorem filter_mem_drop (l : List String) (n : Nat) (hp : List.Pairwise strLt l) :
    l.filter (fun k => decide (k ∈ (l.drop n).reverse)) = l.drop n := by
  have hp2 : List.Pairwise strLt (l.take n ++ l.drop n) := by
    rw [List.take_append_drop]
    exact hp
  have hcross := (List.pairwise_append.mp hp2).2.2
  have hsplitl : l.filter (fun k => decide (k ∈ (l.drop n).reverse)) =
      (l.take n ++ l.drop n).filter (fun k => decide (k ∈ (l.drop n).reverse)) := by
    rw [List.take_append_drop]
  rw [hsplitl, List.filter_append]
  have h1 : (l.take n).filter (fun k => decide (k ∈ (l.drop n).reverse)) = [] := by
    apply List.filter_eq_nil_iff.mpr
    intro a ha
    simp only [decide_eq_true_eq, List.mem_reverse]
    intro hmem
    exact (hcross a ha a hmem).2 rfl
  have h2 : (l.drop n).filter (fun k => decide (k ∈ (l.drop n).reverse)) = l.drop n := by
    apply List.filter_eq_self.mpr
    intro a ha
    simp [List.mem_reverse, ha]
  rw [h1, h2, List.nil_append]

/-- Pruning a strictly ascending key list keeps exactly its last
`MAX_BACKUPS` keys: the sort is the identity, the reverse-and-take picks
the greatest keys, and the filter drops the rest. -/
theorem cleanup_of_sorted (ks : List String) (hp : List.Pairwise strLt ks) :
    cleanupOldBackups ks = ks.drop (ks.length - maxBackups) := by
  unfold cleanupOldBackups
  have hsorted : List.Sorted strLe ks := hp.imp (fun h => h.1)
  rw [List.Sorted.insertionSort_eq hsorted, List.take_reverse]
  exact filter_mem_drop ks (ks.length - maxBackups) hp

/-- A key strictly above an entire prefix block is not in that block. -/
theorem notmem_of_pairwise {ks : List String} {k : String} {rest : List String}
    (hp : List.Pairwise strLt (ks ++ k :: rest)) : k ∉ ks := by
  intro hmem
  have hcross := (List.pairwise_append.mp hp).2.2
  exact (hcross k hmem k (List.mem_cons_self k rest)).2 rfl

/-- Running a sequence of snapshot operations whose keys extend the current
(strictly ascending) backup keys in ascending order retains exactly the
last `MAX_BACKUPS` keys. -/
theorem snapshotOps_spec (ts : List Nat) :
    ∀ ks : List String, List.Pairwise strLt (ks ++ ts.map backupKeyFor) →
      ks.length ≤ maxBackups →
      snapshotOps ts ks =
        (ks ++ ts.map backupKeyFor).drop (ks.length + ts.length - maxBackups) := by
  induction ts with
  | nil =>
    intro ks hp hk
    unfold snapshotOps
    simp only [List.map_nil, List.append_nil, List.foldl_nil, List.length_nil]
    have hz : ks.length + 0 - maxBackups = 0 := by omega
    rw [hz, List.drop_zero]
  | cons tt rest ih =>
    intro ks hp hk
    have hp' : List.Pairwise strLt
        ((ks ++ [backupKeyFor tt]) ++ rest.map backupKeyFor) := by
      rwa [List.map_cons, List.append_cons] at hp
    have hnot : backupKeyFor tt ∉ ks :=
      notmem_of_pairwise (by rwa [List.map_cons] at hp)
    have hpA : List.Pairwise strLt (ks ++ [backupKeyFor tt]) :=
      (List.pairwise_append.mp hp').1
    have hstep : autoBackup tt ks =
        (ks ++ [backupKeyFor tt]).drop (ks.length + 1 - maxBackups) := by
      unfold autoBackup
      rw [if_neg hnot, cleanup_of_sorted _ hpA]
      simp [List.length_append]
    have hlen2 : ((ks ++ [backupKeyFor tt]).drop (ks.length + 1 - maxBackups)).length ≤
        maxBackups := by
      rw [List.length_drop]
      simp only [List.length_append, List.length_cons, List.length_nil]
      unfold maxBackups at *
      omega
    have hsub : (((ks ++ [backupKeyFor tt]).drop (ks.length + 1 - maxBackups)) ++
        rest.map backupKeyFor).Sublist ((ks ++ [backupKeyFor tt]) ++ rest.map backupKeyFor) :=
      List.Sublist.append_right (List.drop_sublist _ _) _
    have hp2 : List.Pairwise strLt
        (((ks ++ [backupKeyFor tt]).drop (ks.length + 1 - maxBackups)) ++
          rest.map backupKeyFor) := List.Pairwise.sublist hsub hp'
    have hih := ih _ hp2 hlen2
    unfold snapshotOps at hih ⊢
    rw [List.foldl_cons, hstep, hih]
    have hdle : ks.length + 1 - maxBackups ≤ (ks ++ [backupKeyFor tt]).length := by
      simp only [List.length_append, List.length_cons, List.length_nil]
      omega
    rw [← List.drop_append_of_le_length hdle, List.drop_drop]
    have hlists : ks ++ [backupKeyFor tt] ++ List.map backupKeyFor rest =
        ks ++ List.map backupKeyFor (tt :: rest) := by
      rw [List.map_cons, ← List.append_cons]
    rw [hlists]
    congr 1
    rw [List.length_drop]
    simp only [List.length_append, List.length_cons, List.length_nil]
    omega

/-- Counterexample to C7 as stated: six snapshot operations at strictly
increasing timestamps 5, 6, ..., 10.  Exactly five keys remain, but they
are not the five with the most recent timestamps: pruning orders the full
key strings lexicographically, `"tomato_timer_backup_10"` sorts below
`"tomato_timer_backup_5"`, so the newest snapshot is deleted while the
oldest survives. -/
theorem C7_counterexample :
    (snapshotOps [5, 6, 7, 8, 9, 10] []).length = 5 ∧
      backupKeyFor 10 ∉ snapshotOps [5, 6, 7, 8, 9, 10] [] ∧
      backupKeyFor 5 ∈ snapshotOps [5, 6, 7, 8, 9, 10] [] := by decide

/-- C7 (amended): starting from a store with no backup keys, after more
than 5 snapshot operations whose keys are strictly increasing
lexicographically (which holds for real `Date.now()` clocks, whose
millisecond values are distinct, increasing and equally long in decimal),
exactly 5 backup keys remain: the 5 lexicographically greatest, i.e. the
last 5 created. -/
theorem C7_amended_retention_keeps_lex_greatest (ts : List Nat)
    (hp : List.Pairwise strLt (ts.map backupKeyFor)) (hn : 5 < ts.length) :
    snapshotOps ts [] = (ts.map backupKeyFor).drop (ts.length - 5) ∧
      (snapshotOps ts []).length = 5 := by
  have h := snapshotOps_spec ts [] (by simpa using hp) (by simp)
  unfold maxBackups at h
  simp only [List.nil_append, List.length_nil, Nat.zero_add] at h
  refine ⟨h, ?_⟩
  rw [h, List.length_drop, List.length_map]
  omega

/-- Witness for the amended C7 at six realistic clock values. -/
theorem C7_witness :
    snapshotOps c7Stamps [] = (c7Stamps.map backupKeyFor).drop (c7Stamps.length - 5) ∧
      (snapshotOps c7Stamps []).length = 5 :=
  C7_amended_retention_keeps_lex_greatest c7Stamps (by decide) (by decide)

/-- Every year has at least 365 days. -/
theorem daysInYear_ge (y : Nat) : 365 ≤ daysInYear y := by
  unfold daysInYear
  split <;> omega

/-- Cumulative day counts step by one year at a time. -/
theorem daysUpToYear_succ (y : Nat) (h : 1970 ≤ y) :
    daysUpToYear (y + 1) = daysUpToYear y + daysInYear y := by
  unfold daysUpToYear
  have h1 : y + 1 - 1970 = (y - 1970) + 1 := by omega
  rw [h1]
  show daysToYearOffset (y - 1970) + daysInYear (1970 + (y - 1970)) = _
  have h2 : 1970 + (y - 1970) = y := by omega
  rw [h2]

/-- Cumulative day counts step by one month at a time. -/
theorem daysUpToMonth_succ (y m : Nat) (h : 1 ≤ m) :
    daysUpToMonth y (m + 1) = daysUpToMonth y m + daysInMonth y m := by
  unfold daysUpToMonth
  have h1 : m + 1 - 1 = (m - 1) + 1 := by omega
  rw [h1]
  show daysToMonthOffset y (m - 1) + daysInMonth y ((m - 1) + 1) = _
  have h2 : (m - 1) + 1 = m := by omega
  rw [h2]

/-- The twelve months of a year sum to its length. -/
theorem daysInYear_eq_months (y : Nat) :
    daysInYear y = daysUpToMonth y 12 + daysInMonth y 12 := by
  cases hl : isLeap y <;>
    simp [daysInYear, daysUpToMonth, daysToMonthOffset, daysInMonth, hl]

/-- Specification of the fuel-driven year extraction: the remainder is a
valid day offset into the resulting year, and the cumulative day count is
preserved. -/
theorem yearOfAux_spec (f : Nat) :
    ∀ y z : Nat, 1970 ≤ y → z ≤ f →
      1970 ≤ (yearOfAux f y z).1 ∧
        (yearOfAux f y z).2 < daysInYear (yearOfAux f y z).1 ∧
        daysUpToYear (yearOfAux f y z).1 + (yearOfAux f y z).2 = daysUpToYear y + z := by
  induction f with
  | zero =>
    intro y z hy hz
    have hz0 : z = 0 := by omega
    subst hz0
    have hge := daysInYear_ge y
    have h0 : yearOfAux 0 y 0 = (y, 0) := rfl
    rw [h0]
    refine ⟨hy, ?_, rfl⟩
    show (0 : Nat) < daysInYear y
    omega
  | succ f ih =>
    intro y z hy hz
    have heq0 : yearOfAux (f + 1) y z =
        if daysInYear y ≤ z then yearOfAux f (y + 1) (z - daysInYear y) else (y, z) := rfl
    by_cases hstep : daysInYear y ≤ z
    · have hge := daysInYear_ge y
      rw [heq0, if_pos hstep]
      obtain ⟨h1, h2, h3⟩ := ih (y + 1) (z - daysInYear y) (by omega) (by omega)
      refine ⟨h1, h2, ?_⟩
      rw [h3, daysUpToYear_succ y hy]
      omega
    · rw [heq0, if_neg hstep]
      refine ⟨hy, ?_, rfl⟩
      show z < daysInYear y
      omega

/-- December has 31 days. -/
theorem daysInMonth_twelve (y : Nat) : daysInMonth y 12 = 31 := rfl

/-- Specification of the fuel-driven month extraction: the remainder is a
valid day offset into the resulting month, and the cumulative day count is
preserved. -/
theorem monthOfAux_spec (y : Nat) (f : Nat) :
    ∀ m r : Nat, 12 - m ≤ f → 1 ≤ m → m ≤ 12 → daysUpToMonth y m + r < daysInYear y →
      1 ≤ (monthOfAux y f m r).1 ∧ (monthOfAux y f m r).1 ≤ 12 ∧
        (monthOfAux y f m r).2 < daysInMonth y (monthOfAux y f m r).1 ∧
        daysUpToMonth y (monthOfAux y f m r).1 + (monthOfAux y f m r).2 =
          daysUpToMonth y m + r := by
  induction f with
  | zero =>
    intro m r hf hm1 hm12 hsum
    have hm : m = 12 := by omega
    subst hm
    have htot := daysInYear_eq_months y
    rw [daysInMonth_twelve] at htot
    have h0 : monthOfAux y 0 12 r = (12, r) := rfl
    rw [h0]
    refine ⟨?_, ?_, ?_, rfl⟩
    · show (1 : Nat) ≤ 12
      omega
    · show (12 : Nat) ≤ 12
      omega
    · show r < daysInMonth y 12
      rw [daysInMonth_twelve]
      omega
  | succ f ih =>
    intro m r hf hm1 hm12 hsum
    have heq0 : monthOfAux y (f + 1) m r =
        if m < 12 ∧ daysInMonth y m ≤ r then monthOfAux y f (m + 1) (r - daysInMonth y m)
        else (m, r) := rfl
    by_cases hstep : m < 12 ∧ daysInMonth y m ≤ r
    · rw [heq0, if_pos hstep]
      have hsucc := daysUpToMonth_succ y m hm1
      obtain ⟨h1, h2, h3, h4⟩ := ih (m + 1) (r - daysInMonth y m) (by omega) (by omega)
        (by omega) (by rw [hsucc]; omega)
      refine ⟨h1, h2, h3, ?_⟩
      rw [h4, hsucc]
      omega
    · rw [heq0, if_neg hstep]
      refine ⟨hm1, hm12, ?_, rfl⟩
      show r < daysInMonth y m
      by_cases hr : r < daysInMonth y m
      · exact hr
      · have hm : m = 12 := by omega
        subst hm
        have htot := daysInYear_eq_months y
        rw [daysInMonth_twelve] at htot ⊢
        omega

/-- The civil conversion of a day count is a valid calendar date and
`daysFromCivil` inverts it. -/
theorem civilFromDays_spec (z : Nat) :
    1970 ≤ (civilFromDays z).1 ∧
      1 ≤ (civilFromDays z).2.1 ∧ (civilFromDays z).2.1 ≤ 12 ∧
      1 ≤ (civilFromDays z).2.2 ∧
      (civilFromDays z).2.2 ≤ daysInMonth (civilFromDays z).1 (civilFromDays z).2.1 ∧
      daysFromCivil (civilFromDays z).1 (civilFromDays z).2.1 (civilFromDays z).2.2 = z := by
  have h1970 : daysUpToYear 1970 = 0 := rfl
  have hmu : daysUpToMonth (yearOfAux z 1970 z).1 1 = 0 := rfl
  obtain ⟨hy, hr, hysum⟩ := yearOfAux_spec z 1970 z (by omega) (Nat.le_refl z)
  obtain ⟨hm1, hm12, hd, hmsum⟩ :=
    monthOfAux_spec (yearOfAux z 1970 z).1 12 1 (yearOfAux z 1970 z).2 (by omega)
      (by omega) (by omega) (by omega)
  have e1 : (civilFromDays z).1 = (yearOfAux z 1970 z).1 := rfl
  have e2 : (civilFromDays z).2.1 =
      (monthOfAux (yearOfAux z 1970 z).1 12 1 (yearOfAux z 1970 z).2).1 := rfl
  have e3 : (civilFromDays z).2.2 =
      (monthOfAux (yearOfAux z 1970 z).1 12 1 (yearOfAux z 1970 z).2).2 + 1 := rfl
  rw [e1, e2, e3]
  unfold daysFromCivil
  refine ⟨hy, by omega, hm12, by omega, by omega, by omega⟩

/-- Decoding a rendered digit recovers the digit. -/
theorem charVal_digitChar (k : Nat) (hk : k < 10) : charVal (digitChar k) = k := by
  interval_cases k <;> rfl

/-- A digit rendered from a `% 10` value decodes to that value. -/
theorem charVal_digitChar_mod (n : Nat) : charVal (digitChar (n % 10)) = n % 10 :=
  charVal_digitChar (n % 10) (Nat.mod_lt n (by omega))

/-- Rendered digits pass the digit test. -/
theorem isDigitCh_digitChar (k : Nat) (hk : k < 10) : isDigitCh (digitChar k) = true := by
  interval_cases k <;> rfl

/-- A digit rendered from a `% 10` value passes the digit test. -/
theorem isDigitCh_digitChar_mod (n : Nat) : isDigitCh (digitChar (n % 10)) = true :=
  isDigitCh_digitChar (n % 10) (Nat.mod_lt n (by omega))

/-- Months have at most 31 days. -/
theorem daysInMonth_le (y m : Nat) : daysInMonth y m ≤ 31 := by
  unfold daysInMonth
  split
  · split <;> omega
  · split <;> omega

/-- Parsing the ISO rendering of a representable timestamp recovers the
timestamp. -/
theorem parse_isoChars (ms : Nat) (hsafe : isoSafe ms) :
    parseJsDateChars (isoChars ms) = some ms := by
  obtain ⟨hy1970, hm1, hm12, hd1, hdle, hinv⟩ := civilFromDays_spec (ms / msPerDay)
  have hy9999 : (civilFromDays (ms / msPerDay)).1 ≤ 9999 := hsafe
  have hdm := daysInMonth_le (civilFromDays (ms / msPerDay)).1 (civilFromDays (ms / msPerDay)).2.1
  have ht : ms % msPerDay < 86400000 := by
    unfold msPerDay
    exact Nat.mod_lt ms (by omega)
  have hyrec : (civilFromDays (ms / msPerDay)).1 / 1000 % 10 * 1000 +
      (civilFromDays (ms / msPerDay)).1 / 100 % 10 * 100 +
      (civilFromDays (ms / msPerDay)).1 / 10 % 10 * 10 +
      (civilFromDays (ms / msPerDay)).1 % 10 = (civilFromDays (ms / msPerDay)).1 := by
    omega
  have hmrec : (civilFromDays (ms / msPerDay)).2.1 / 10 % 10 * 10 +
      (civilFromDays (ms / msPerDay)).2.1 % 10 = (civilFromDays (ms / msPerDay)).2.1 := by
    omega
  have hdrec : (civilFromDays (ms / msPerDay)).2.2 / 10 % 10 * 10 +
      (civilFromDays (ms / msPerDay)).2.2 % 10 = (civilFromDays (ms / msPerDay)).2.2 := by
    omega
  have hhrec : ms % msPerDay / 3600000 / 10 % 10 * 10 +
      ms % msPerDay / 3600000 % 10 = ms % msPerDay / 3600000 := by
    omega
  have hirec : ms % msPerDay % 3600000 / 60000 / 10 % 10 * 10 +
      ms % msPerDay % 3600000 / 60000 % 10 = ms % msPerDay % 3600000 / 60000 := by
    omega
  have hsrec : ms % msPerDay % 60000 / 1000 / 10 % 10 * 10 +
      ms % msPerDay % 60000 / 1000 % 10 = ms % msPerDay % 60000 / 1000 := by
    omega
  have hfrec : ms % msPerDay % 1000 / 100 % 10 * 100 +
      ms % msPerDay % 1000 / 10 % 10 * 10 +
      ms % msPerDay % 1000 % 10 = ms % msPerDay % 1000 := by
    omega
  simp only [isoChars, pad4, pad2, pad3, List.cons_append, List.nil_append,
    List.append_assoc]
  simp only [parseJsDateChars]
  simp only [charVal_digitChar_mod, hyrec, hmrec, hdrec, hhrec, hirec, hsrec, hfrec]
  rw [if_pos, if_pos]
  rotate_left
  · exact ⟨hy1970, hm1, hm12, hd1, hdle, by omega, by omega, by omega⟩
  · simp [isDigitCh_digitChar_mod]
  · rw [hinv]
    refine congrArg some ?_
    unfold msPerDay at ht ⊢
    omega

/-- Applying `new Date` to the ISO rendering of a representable timestamp
recovers the timestamp. -/
theorem newDateMs_iso (ms : Nat) (h : isoSafe ms) : newDateMs (isoString ms) = ms := by
  unfold newDateMs isoString
  have hdata : (String.mk (isoChars ms)).data = isoChars ms := rfl
  rw [hdata, parse_isoChars ms h]
  rfl


/-- Serializing then reviving one valid task is the identity. -/
theorem reviveTask_serializeTask (t : Task) (h : ValidTask t) :
    reviveTask (serializeTask t) = t := by
  obtain ⟨h1, h2, h3, h4⟩ := h
  simp only [reviveTask, serializeTask]
  rw [newDateMs_iso _ h1, newDateMs_iso _ h2, newDateMs_iso _ h3, newDateMs_iso _ h4]

/-- Serializing then reviving one valid subtask reproduces it, with its
scheduled date as the date value it denotes. -/
theorem reviveSubTask_serializeSubTask (s : SubTask) (h : ValidSubTask s) :
    reviveSubTask (serializeSubTask s) =
      { s with scheduledDate := sdateValue s.scheduledDate } := by
  obtain ⟨h1, h2, h3⟩ := h
  rcases h3 with ⟨ms0, _, hsd⟩ | ⟨ms0, hms0, hsd⟩ <;>
    simp only [reviveSubTask, serializeSubTask, serSDate, sdateValue, hsd] <;>
    rw [newDateMs_iso _ h1, newDateMs_iso _ h2]
  rw [newDateMs_iso _ hms0]

/-- C8: saving tasks or subtasks and reading them back reproduces the
original items, with every date-typed field (startDate, deadline,
scheduledDate, createdAt, updatedAt) revived as the date value it denotes
— not left in its serialized string form. -/
theorem C8_persistence_roundtrip (ts : List Task) (ss : List SubTask)
    (hts : ∀ t ∈ ts, ValidTask t) (hss : ∀ s ∈ ss, ValidSubTask s) :
    taskGetAll (taskSaveAll ts) = ts ∧
      subTaskGetAll (subTaskSaveAll ss) =
        ss.map (fun s => { s with scheduledDate := sdateValue s.scheduledDate }) := by
  constructor
  · unfold taskGetAll taskSaveAll
    rw [List.map_map]
    have hpt : ∀ t ∈ ts, (reviveTask ∘ serializeTask) t = id t := fun t ht =>
      reviveTask_serializeTask t (hts t ht)
    rw [List.map_congr_left hpt, List.map_id]
  · unfold subTaskGetAll subTaskSaveAll
    rw [List.map_map]
    exact List.map_congr_left fun s hs => reviveSubTask_serializeSubTask s (hss s hs)

/-- Witness for C8 at a concrete one-task, one-subtask store. -/
theorem C8_witness :
    taskGetAll (taskSaveAll [sampleEvenTask]) = [sampleEvenTask] ∧
      subTaskGetAll (subTaskSaveAll [sampleStrSub]) =
        [sampleStrSub].map (fun s => { s with scheduledDate := sdateValue s.scheduledDate }) := by
  refine C8_persistence_roundtrip [sampleEvenTask] [sampleStrSub] ?_ ?_
  · intro t ht
    have heq : t = sampleEvenTask := by
      simpa using ht
    subst heq
    exact ⟨by decide, by decide, by decide, by decide⟩
  · intro s hs
    have heq : s = sampleStrSub := by
      simpa using hs
    subst heq
    refine ⟨by decide, by decide, Or.inl ⟨19914 * msPerDay, by decide, ?_⟩⟩
    show SDate.str "2024-07-10" = SDate.str (formatDate (19914 * msPerDay))
    have : formatDate (19914 * msPerDay) = "2024-07-10" := by decide
    rw [this]

end TomatoTimer
